import Mathlib

/-!
Verification of the iadpython specification against the repository.

The repository ships documentation, notebooks with recorded outputs, and
reference data; the Python package modules themselves (`iadpython/*.py`) are
not part of the source tree under inspection.  Definitions below are therefore
shallow embeddings of the formulas stated in the specification and pinned down
by the shipped documents; every such definition carries a doc comment saying
what it models.  Rational numbers stand in for Python floats wherever the
quantities involved are exactly representable; real numbers are used where
square roots, π, or integrals occur.

The file is organised as definitions first, then theorems.
-/

namespace Iadpython

open scoped Matrix

/-! ## Definitions: intrinsic optical properties (sample data model) -/

/-- Modelled from the spec: single-scattering albedo `a = μs/(μa+μs)`
(glossary; also both README usage examples). -/
def albedo (mu_a mu_s : ℚ) : ℚ := mu_s / (mu_a + mu_s)

/-- Modelled from the spec: optical thickness `b = (μa+μs)·d` (glossary and
§ Ambiguity, "An implementation must use `b = (μa+μs)·d`"); this is the
formula in the current README.rst forward-calculation example. -/
def optical_thickness (mu_a mu_s d : ℚ) : ℚ := (mu_a + mu_s) * d

/-- Embedded from the older shipped README (src/unnamed/part_004, usage
example): `b = mu_s/(mu_a+mu_s) * d`.  The spec calls this a historical bug. -/
def optical_thickness_legacy (mu_a mu_s d : ℚ) : ℚ := mu_s / (mu_a + mu_s) * d

/-- Modelled from the spec: the `Sample` data model (§3) restricted to the
scalar intrinsic fields, with the constructor defaults printed by the shipped
notebooks (docs/ad-sample.ipynb cell 2 and docs/iad-with-spheres.ipynb):
`a=0, b=1, g=0, d=1 mm, n = n_above = n_below = 1, ν0 = 1`, and
`quadrature points = 4`.  (The spec's §3 prose says the default quadrature
size is 8; the notebooks record 4.) -/
structure Sample where
  a : ℚ
  b : ℚ
  g : ℚ
  d : ℚ
  n : ℚ
  n_above : ℚ
  n_below : ℚ
  nu_0 : ℚ
  quad_pts : ℕ

/-- Modelled from the spec: the default `Sample()` object, fields as printed
by docs/ad-sample.ipynb ("absorbing-only, 1mm thick, index 1",
`quadrature points   = 4`). -/
def default_sample : Sample :=
  { a := 0, b := 1, g := 0, d := 1, n := 1, n_above := 1, n_below := 1
    nu_0 := 1, quad_pts := 4 }

/-- Modelled from the spec: derived scattering coefficient `μs = a·b/d`
(§3 `Sample` invariants; notebook method `Sample.mu_s`). -/
def Sample.mu_s (s : Sample) : ℚ := s.a * s.b / s.d

/-- Modelled from the spec: derived absorption coefficient `μa = (1−a)·b/d`
(§3 `Sample` invariants; notebook method `Sample.mu_a`). -/
def Sample.mu_a (s : Sample) : ℚ := (1 - s.a) * s.b / s.d

/-- Modelled from the spec: reduced scattering coefficient `μs′ = μs·(1−g)`
(§3 `Sample` invariants; notebook method `Sample.mu_sp`). -/
def Sample.mu_sp (s : Sample) : ℚ := s.mu_s * (1 - s.g)

/-- The sample built exactly as in the README forward-calculation examples
from `mu_s = 10`, `mu_a = 0.1`, `g = 0.9`, `d = 1`, with a given choice of
optical-thickness formula. -/
def readme_sample (b : ℚ) : Sample :=
  { a := albedo (1/10) 10, b := b, g := 9/10, d := 1, n := 7/5
    n_above := 3/2, n_below := 3/2, nu_0 := 1, quad_pts := 4 }

/-! ## Definitions: integrating sphere (single-sphere analytic gain) -/

/-- Modelled from the spec: relative area of a circular port of diameter
`d_port` on a sphere of diameter `d_sphere` (§4.8 port area fractions).  The
flat-cap form `(d/D)²/4` is the one that reproduces every analytic gain
recorded in the shipped Monte-Carlo notebooks (3.518, 3.698, 3.913). -/
def port_a (d_port d_sphere : ℚ) : ℚ := (d_port / d_sphere) ^ 2 / 4

/-- Modelled from the spec: a single integrating sphere (§3 `Sphere σ`),
ports `{sample, third, detector}` with diameters and current reflectances;
`sample_uru` and `third_uru` are the current diffuse reflectances sitting in
the sample and third ports. -/
structure Sphere where
  d_sphere : ℚ
  d_sample : ℚ
  d_third : ℚ
  d_detector : ℚ
  r_detector : ℚ
  r_wall : ℚ
  r_std : ℚ
  sample_uru : ℚ
  third_uru : ℚ
  baffle : Bool

/-- Modelled from the spec: wall area fraction, `1 − Σ port fractions`
(§4.8 "per-port area fractions summing (with walls) to 1"). -/
def Sphere.a_wall (s : Sphere) : ℚ :=
  1 - port_a s.d_sample s.d_sphere - port_a s.d_third s.d_sphere
    - port_a s.d_detector s.d_sphere

/-- Modelled from the spec: average reflectance per bounce,
`a_w·r_w + a_sample·uru_sample + a_third·uru_third + a_det·r_det`
(the quantity whose complement is the spec's §4.8 average loss `M`). -/
def Sphere.bounce_r (s : Sphere) : ℚ :=
  s.a_wall * s.r_wall + port_a s.d_sample s.d_sphere * s.sample_uru
    + port_a s.d_third s.d_sphere * s.third_uru
    + port_a s.d_detector s.d_sphere * s.r_detector

/-- Modelled from the spec: analytic sphere gain for the no-baffle geometry,
the geometric series of wall bounces `1 + β + β² + … = 1/(1−β) = 1/M` with
`β` the average per-bounce reflectance and `M` the spec's §4.8 average loss.
(The spec's displayed `G` is the multiple-bounce part `β/M = 1/M − 1`;
scenario S4 (`gain ≈ 3.913`) and the three no-baffle analytic gains recorded
in the Monte-Carlo notebook fix the `1/M` normalization used here.) -/
def Sphere.gain (s : Sphere) : ℚ := 1 / (1 - s.bounce_r)

/-- The sphere of spec scenario S4 and of "case 3, no baffle" in the shipped
Monte-Carlo gain notebook: `D=60, d_sample=20, d_third=15, d_det=10,
r_wall=0.75, r_std=0.8, r_det=0.5, sample.uru=0.5, third.uru=0.95`. -/
def s4_sphere : Sphere :=
  { d_sphere := 60, d_sample := 20, d_third := 15, d_detector := 10
    r_detector := 1/2, r_wall := 3/4, r_std := 4/5
    sample_uru := 1/2, third_uru := 19/20, baffle := false }

/-! ## Definitions: quadrature (component C1 of the spec) -/

/-- Modelled from the spec: a quadrature rule, an ordered family of nodes
(cosines) with matching weights (§3 "Quadrature set Q"). -/
structure QuadRule (n : ℕ) where
  nodes : Fin n → ℝ
  weights : Fin n → ℝ

/-- Modelled from the spec: affine transfer of a base rule on `[−1,1]` to the
interval `[lo,hi]` (§4.1; the Gauss and Radau sub-rules are produced on
`[−1,1]` and mapped onto `(0,νc)` and `(νc,1]`). -/
noncomputable def QuadRule.shift {n : ℕ} (r : QuadRule n) (lo hi : ℝ) : QuadRule n where
  nodes := fun i => (hi - lo) / 2 * r.nodes i + (hi + lo) / 2
  weights := fun i => (hi - lo) / 2 * r.weights i

/-- Modelled from the spec: exactness of a base rule on `[−1,1]` for
polynomials of degree ≤ 1, the fragment of the §4.1 Gauss/Radau exactness
used by the flux invariant: `Σ w = ∫1 = 2` and `Σ w·x = ∫x = 0`.
`gauss(n)` is exact to degree `2n−1 ≥ 1` and `radau(n)` to `2n−2 ≥ 1` for
`n ≥ 2` (and `gauss(1)`, the midpoint rule, to degree 1 as well). -/
def QuadRule.exact1 {n : ℕ} (r : QuadRule n) : Prop :=
  (∑ i, r.weights i) = 2 ∧ (∑ i, r.weights i * r.nodes i) = 0

/-- Modelled from the spec: the flux integral `Σ 2·ν·w` of a rule
(§3 `twonuw`; §4.1 invariant `Σ 2·ν·w = 1`). -/
def QuadRule.twonuw_sum {n : ℕ} (r : QuadRule n) : ℝ :=
  ∑ i, 2 * r.nodes i * r.weights i

/-- Concatenation of two quadrature rules (the split quadrature stores the
below-critical nodes first, then the above-critical ones). -/
def QuadRule.append {n₁ n₂ : ℕ} (r₁ : QuadRule n₁) (r₂ : QuadRule n₂) :
    QuadRule (n₁ + n₂) where
  nodes := Fin.append r₁.nodes r₂.nodes
  weights := Fin.append r₁.weights r₂.weights

/-- Modelled from the spec: `cos_critical(n1, n2) = √(1 − (n2/n1)²)` when
`n1 > n2` else 0 (§4.2). -/
noncomputable def cos_critical (n₁ n₂ : ℝ) : ℝ :=
  if n₂ < n₁ then Real.sqrt (1 - (n₂ / n₁) ^ 2) else 0

/-- Modelled from the spec: `quadrature(S)` for a sample of refractive index
`n > 1` (§4.1): a Gauss rule mapped onto `(0, νc)` followed by a Radau rule
(node pinned at `+1`) mapped onto `(νc, 1]`, where `νc = cos_critical(n, 1)`. -/
noncomputable def split_quadrature (n : ℝ) {N₁ N₂ : ℕ}
    (gauss : QuadRule N₁) (radau : QuadRule N₂) : QuadRule (N₁ + N₂) :=
  (gauss.shift 0 (cos_critical n 1)).append (radau.shift (cos_critical n 1) 1)

/-- A 1-point Gauss rule on `[−1,1]` (the midpoint rule), used as a concrete
instance of a degree-1-exact base rule. -/
noncomputable def gauss1_rule : QuadRule 1 where
  nodes := ![0]
  weights := ![2]

/-- The 2-point right-Radau rule on `[−1,1]`: nodes `−1/3, 1`, weights
`3/2, 1/2`; pinned at `+1` and exact to degree `2·2−2 = 2`. -/
noncomputable def radau2_rule : QuadRule 2 where
  nodes := ![-(1/3), 1]
  weights := ![3/2, 1/2]

/-! ## Definitions: Henyey–Greenstein redistribution (component C3 of the spec) -/

/-- Legendre polynomials `Pₖ` through the three-term recurrence
`(k+2)·P_{k+2}(x) = (2k+3)·x·P_{k+1}(x) − (k+1)·Pₖ(x)`. -/
noncomputable def legendreP : ℕ → ℝ → ℝ
  | 0, _ => 1
  | 1, x => x
  | k + 2, x =>
      ((2 * (k : ℝ) + 3) * x * legendreP (k + 1) x - ((k : ℝ) + 1) * legendreP k x)
        / ((k : ℝ) + 2)

/-- Modelled from the spec: δ-M transformed Henyey–Greenstein moments
`χₖ* = (gᵏ − gᴹ)/(1 − gᴹ)` for truncation order `M` (§4.3 LEGENDRE path). -/
noncomputable def chi_dm (g : ℝ) (M k : ℕ) : ℝ := (g ^ k - g ^ M) / (1 - g ^ M)

/-- Modelled from the spec: same-hemisphere redistribution matrix of the δ-M
Legendre path, `h⁺⁺[i,j] = Σₖ (2k+1) χₖ* Pₖ(νᵢ) Pₖ(νⱼ)`, `k = 0..M−1`
(§4.3).  The truncation order is a parameter: the spec's §4.3 prose sets
`M = 2N`, while the shipped redistribution notebook output (`g=0.9,
quad_pts=4`, `h⁺⁺[3,3] = 6.84908`) corresponds to `M = N`. -/
noncomputable def hg_legendre_hp (g : ℝ) (M : ℕ) {N : ℕ} (ν : Fin N → ℝ) :
    Matrix (Fin N) (Fin N) ℝ :=
  Matrix.of fun i j =>
    ∑ k ∈ Finset.range M,
      (2 * (k : ℝ) + 1) * chi_dm g M k * legendreP k (ν i) * legendreP k (ν j)

/-- Modelled from the spec: opposite-hemisphere redistribution matrix of the
δ-M Legendre path, `h⁺⁻[i,j] = Σₖ (2k+1) χₖ* Pₖ(νᵢ) Pₖ(−νⱼ)` (§4.3). -/
noncomputable def hg_legendre_hm (g : ℝ) (M : ℕ) {N : ℕ} (ν : Fin N → ℝ) :
    Matrix (Fin N) (Fin N) ℝ :=
  Matrix.of fun i j =>
    ∑ k ∈ Finset.range M,
      (2 * (k : ℝ) + 1) * chi_dm g M k * legendreP k (ν i) * legendreP k (-ν j)

/-- Complete elliptic integral of the second kind in the modulus convention,
`E(x) = ∫₀^{π/2} √(1 − x² sin²t) dt` (the spec's §4.3 `E`). -/
noncomputable def ellipe (x : ℝ) : ℝ :=
  ∫ t in (0 : ℝ)..(Real.pi / 2), Real.sqrt (1 - x ^ 2 * Real.sin t ^ 2)

/-- Modelled from the spec: closed-form Henyey–Greenstein redistribution
function of the ELLIPTIC path,
`h(νᵢ,νⱼ) = (2/π)·(1−g²)/[(α−γ)·√(α+γ)] · E(√(2γ/(α+γ)))` with
`α = 1 + g² − 2gνᵢνⱼ` and `γ = 2g·√(1−νᵢ²)·√(1−νⱼ²)` (§4.3). -/
noncomputable def hg_elliptic_h (g nu_i nu_j : ℝ) : ℝ :=
  (2 / Real.pi) * (1 - g ^ 2)
      / ((1 + g ^ 2 - 2 * g * nu_i * nu_j
            - 2 * g * Real.sqrt (1 - nu_i ^ 2) * Real.sqrt (1 - nu_j ^ 2))
          * Real.sqrt (1 + g ^ 2 - 2 * g * nu_i * nu_j
            + 2 * g * Real.sqrt (1 - nu_i ^ 2) * Real.sqrt (1 - nu_j ^ 2)))
    * ellipe (Real.sqrt
        ((2 * (2 * g * Real.sqrt (1 - nu_i ^ 2) * Real.sqrt (1 - nu_j ^ 2)))
          / (1 + g ^ 2 - 2 * g * nu_i * nu_j
            + 2 * g * Real.sqrt (1 - nu_i ^ 2) * Real.sqrt (1 - nu_j ^ 2))))

/-- Modelled from the spec: same-hemisphere redistribution matrix of the
ELLIPTIC path, sampled on the quadrature cosines (§4.3). -/
noncomputable def hg_elliptic_hp (g : ℝ) {N : ℕ} (ν : Fin N → ℝ) :
    Matrix (Fin N) (Fin N) ℝ :=
  Matrix.of fun i j => hg_elliptic_h g (ν i) (ν j)

/-- Modelled from the spec: opposite-hemisphere redistribution matrix of the
ELLIPTIC path, `h(νᵢ, −νⱼ)` (§4.3). -/
noncomputable def hg_elliptic_hm (g : ℝ) {N : ℕ} (ν : Fin N → ℝ) :
    Matrix (Fin N) (Fin N) ℝ :=
  Matrix.of fun i j => hg_elliptic_h g (ν i) (-ν j)

/-- Hemisphere quadrature cosines as constrained by the spec's §3 data model:
strictly increasing, contained in `(0,1]`, with the last node pinned at 1. -/
def valid_nodes {N : ℕ} (ν : Fin N → ℝ) : Prop :=
  StrictMono ν ∧ (∀ i, 0 < ν i ∧ ν i ≤ 1) ∧
    ∀ hN : 0 < N, ν ⟨N - 1, Nat.sub_lt hN one_pos⟩ = 1

/-- The claim under test (spec §8 property 7): for every `|g| ≤ 0.95` and
quadrature size `N ≥ 16`, the δ-M Legendre matrices (order `M = 2N` as in
§4.3) and the elliptic matrices agree entrywise to `10⁻³`. -/
def dm_elliptic_agreement_claim : Prop :=
  ∀ (N : ℕ) (g : ℝ) (ν : Fin N → ℝ), 16 ≤ N → |g| ≤ 95 / 100 → valid_nodes ν →
    (∀ i j, |hg_legendre_hp g (2 * N) ν i j - hg_elliptic_hp g ν i j| ≤ 1 / 1000) ∧
    (∀ i j, |hg_legendre_hm g (2 * N) ν i j - hg_elliptic_hm g ν i j| ≤ 1 / 1000)

/-- Concrete valid 16-point quadrature cosines `νᵢ = (i+1)/16` used to refute
the agreement claim. -/
noncomputable def c5_nodes : Fin 16 → ℝ := fun i => ((i : ℕ) + 1 : ℝ) / 16

/-! ## Definitions: layer matrices and the adding step (components C5–C7) -/

/-- Modelled from the spec: the four `N×N` layer matrices `R₀₁, R₁₀, T₀₁,
T₁₀` of a slab (§3 "Layer matrices"); `X[i,j]` is the bidirectional density
for light entering in direction `νⱼ` and leaving in direction `νᵢ`. -/
structure Layer (N : ℕ) where
  r01 : Matrix (Fin N) (Fin N) ℝ
  r10 : Matrix (Fin N) (Fin N) ℝ
  t01 : Matrix (Fin N) (Fin N) ℝ
  t10 : Matrix (Fin N) (Fin N) ℝ

/-- Matrix inverse by the adjugate, `A⁻¹ = det(A)⁻¹ · adj(A)`; stands in for
the linear solves (`np.linalg.solve`) of the adding step, and agrees with the
true inverse whenever the determinant is a unit. -/
noncomputable def minv {N : ℕ} (A : Matrix (Fin N) (Fin N) ℝ) :
    Matrix (Fin N) (Fin N) ℝ :=
  A.det⁻¹ • A.adjugate

/-- Modelled from the spec: adding of two dissimilar layers, layer 1 above
layer 2 (§4.5), with `A = T₂₀₁·(I − R₁₁₀·R₂₀₁)⁻¹` and
`B = T₁₁₀·(I − R₂₀₁·R₁₁₀)⁻¹` exactly as displayed there, and
`T₀₁ = A·T₁₀₁`, `T₁₀ = B·T₂₁₀`, `R₀₁ = R₁₀₁ + B·R₂₀₁·T₁₀₁`,
`R₁₀ = R₂₁₀ + A·R₁₁₀·T₂₁₀` (the van de Hulst adding equations; the
spec's two `R` display lines transpose `A` with `B`, a pairing under which a
perfectly mirroring lower layer would contribute nothing to the reflection,
contradicting its own `T` lines and the shipped matrices). -/
noncomputable def add_layers {N : ℕ} (L₁ L₂ : Layer N) : Layer N where
  r01 := L₁.r01 + L₁.t10 * minv (1 - L₂.r01 * L₁.r10) * L₂.r01 * L₁.t01
  r10 := L₂.r10 + L₂.t01 * minv (1 - L₁.r10 * L₂.r01) * L₁.r10 * L₂.t10
  t01 := L₂.t01 * minv (1 - L₁.r10 * L₂.r01) * L₁.t01
  t10 := L₁.t10 * minv (1 - L₂.r01 * L₁.r10) * L₂.t10

/-- The same physical layer viewed upside down: the `01` and `10` slots
swap.  When `n_above = n_below` the bottom boundary layer is the mirror of
the top boundary layer (§4.5 "Add identical slides above and below"). -/
def mirror {N : ℕ} (L : Layer N) : Layer N :=
  { r01 := L.r10, r10 := L.r01, t01 := L.t10, t10 := L.t01 }

/-- A three-layer stack: top boundary, slab, bottom boundary, composed by
two adding steps (§4.5 "Add identical slides above and below": boundary ·
symmetric slab · boundary). -/
noncomputable def stack3 {N : ℕ} (top mid bot : Layer N) : Layer N :=
  add_layers (add_layers top mid) bot

/-- Modelled from the spec: the slide-wrapped sample when the two slides are
identical — boundary layer, slab, mirrored boundary layer (§4.5). -/
noncomputable def add_slides {N : ℕ} (boundary slab : Layer N) : Layer N :=
  stack3 boundary slab (mirror boundary)

/-- Modelled from the spec: the total (diffuse-in, diffuse-out) flux carried
by a layer matrix, the full `twonuw`-weighted contraction
`Σᵢⱼ twonuw[i]·X[i,j]·twonuw[j]` used for `URU`/`UTU` (§3, §4.7); the
grand-total "flux" cell printed by `wrmatrix`. -/
def total_flux {N : ℕ} (w : Fin N → ℝ) (X : Matrix (Fin N) (Fin N) ℝ) : ℝ :=
  ∑ i, ∑ j, w i * X i j * w j

/-- Reciprocity of a layer: both reflection operators are symmetric and the
two transmission operators are mutual transposes.  The shipped `wrmatrix`
tables satisfy this (symmetric `R03`, `R30`, and `T30 = T03ᵀ`). -/
def Recip {N : ℕ} (L : Layer N) : Prop :=
  L.r01ᵀ = L.r01 ∧ L.r10ᵀ = L.r10 ∧ L.t01ᵀ = L.t10

/-- Concrete boundary layer for instantiating the slide-symmetry theorem. -/
noncomputable def c4_boundary : Layer 1 :=
  { r01 := 1, r10 := 0, t01 := 1, t10 := 1 }

/-- Concrete symmetric slab for instantiating the slide-symmetry theorem. -/
noncomputable def c4_slab : Layer 1 :=
  { r01 := 1, r10 := 1, t01 := 1, t10 := 1 }

/-- Concrete reciprocal top boundary layer (distinct from the bottom one, the
`n_above ≠ n_below` situation) for instantiating the reciprocity theorem. -/
noncomputable def c9_top : Layer 1 :=
  { r01 := 1, r10 := 0, t01 := 1, t10 := 1 }

/-- Concrete reciprocal slab for instantiating the reciprocity theorem. -/
noncomputable def c9_mid : Layer 1 :=
  { r01 := 0, r10 := 0, t01 := 1, t10 := 1 }

/-- Concrete reciprocal bottom boundary layer for the reciprocity theorem. -/
noncomputable def c9_bot : Layer 1 :=
  { r01 := 0, r10 := 1, t01 := 1, t10 := 1 }

/-- Concrete `twonuw` weights for instantiating the total-internal-reflection
theorem. -/
noncomputable def c10_w : Fin 2 → ℝ := ![2, 3]

/-- Concrete top boundary layer whose direction 0 is totally internally
reflected: reflection diagonal `1/twonuw` at index 0, transmission column
and row 0 zero. -/
noncomputable def c10_top : Layer 2 :=
  { r01 := !![1/2, 0; 0, 5], r10 := 1
    t01 := !![0, 4; 0, 7], t10 := !![0, 0; 6, 8] }

/-- Concrete (arbitrary) slab for the total-internal-reflection theorem. -/
noncomputable def c10_mid : Layer 2 :=
  { r01 := !![1, 2; 3, 4], r10 := !![4, 3; 2, 1]
    t01 := !![1, 1; 2, 2], t10 := !![2, 0; 1, 3] }

/-- Concrete bottom boundary layer whose direction 0 is totally internally
reflected (transmission row 0 zero). -/
noncomputable def c10_bot : Layer 2 :=
  { r01 := !![1, 0; 0, 1], r10 := !![2, 1; 1, 2]
    t01 := !![0, 0; 5, 6], t10 := !![0, 1; 0, 2] }

end Iadpython

namespace Iadpython

open scoped Matrix

/-! ## Helper lemmas: quadrature -/

/-- Flux integral of an affinely shifted degree-1-exact rule: exactly
`hi² − lo²`, the integral of `2ν` over `[lo,hi]`. -/
theorem twonuw_sum_shift {n : ℕ} (r : QuadRule n) (h : r.exact1) (lo hi : ℝ) :
    (r.shift lo hi).twonuw_sum = hi ^ 2 - lo ^ 2 := by
  obtain ⟨hw, hwx⟩ := h
  unfold QuadRule.twonuw_sum QuadRule.shift
  have hterm : ∀ i : Fin n,
      2 * ((hi - lo) / 2 * r.nodes i + (hi + lo) / 2) * ((hi - lo) / 2 * r.weights i)
        = (hi - lo) ^ 2 / 2 * (r.weights i * r.nodes i)
          + (hi ^ 2 - lo ^ 2) / 2 * r.weights i := by
    intro i; ring
  rw [Finset.sum_congr rfl fun i _ => hterm i, Finset.sum_add_distrib,
    ← Finset.mul_sum, ← Finset.mul_sum, hw, hwx]
  ring

/-- Flux integral of a concatenated rule is the sum of the flux integrals. -/
theorem twonuw_sum_append {n₁ n₂ : ℕ} (r₁ : QuadRule n₁) (r₂ : QuadRule n₂) :
    (r₁.append r₂).twonuw_sum = r₁.twonuw_sum + r₂.twonuw_sum := by
  unfold QuadRule.twonuw_sum QuadRule.append
  rw [Fin.sum_univ_add]
  simp [Fin.append_left, Fin.append_right]

/-- The critical cosine of a sample with index `n > 1` against air lies
strictly between 0 and 1. -/
theorem cos_critical_mem_Ioo {n : ℝ} (hn : 1 < n) :
    0 < cos_critical n 1 ∧ cos_critical n 1 < 1 := by
  have h0 : (0 : ℝ) < n := lt_trans one_pos hn
  have h1 : (1 / n) ^ 2 < 1 := by
    have : 1 / n < 1 := by rw [div_lt_one h0]; exact hn
    have hpos : 0 < 1 / n := by positivity
    nlinarith
  have h2 : 0 < 1 - (1 / n) ^ 2 := by linarith
  have hif : cos_critical n 1 = Real.sqrt (1 - (1 / n) ^ 2) := by
    unfold cos_critical
    rw [if_pos hn]
  constructor
  · rw [hif]; exact Real.sqrt_pos.mpr h2
  · rw [hif]
    have h3 : 0 < (1 / n) ^ 2 := by positivity
    have : Real.sqrt (1 - (1 / n) ^ 2) < Real.sqrt 1 := by
      apply Real.sqrt_lt_sqrt (le_of_lt h2)
      linarith
    simpa using this

/-! ## Theorems for claims C1, C6, C8 -/

/-- C1: the two shipped README usage examples disagree on the optical
thickness of the very sample they both construct (`mu_a = 0.1`, `mu_s = 10`,
`d = 1`): the old README (src/unnamed/part_004) computes
`b = mu_s/(mu_a+mu_s)·d = 100/101 ≈ 0.990`, while the physical definition
required by the spec (and used by README.rst) gives `b = (mu_a+mu_s)·d
= 10.1`.  With the correct `b` the derived coefficients invert exactly
(`μs = a·b/d = 10`, `μa = (1−a)·b/d = 0.1`, `μs′ = μs·(1−g) = 1`); with the
legacy `b` they do not. -/
theorem readme_optical_thickness_bug :
    optical_thickness_legacy (1/10) 10 1 = 100/101 ∧
    optical_thickness (1/10) 10 1 = 101/10 ∧
    optical_thickness_legacy (1/10) 10 1 ≠ optical_thickness (1/10) 10 1 ∧
    (readme_sample (optical_thickness (1/10) 10 1)).mu_s = 10 ∧
    (readme_sample (optical_thickness (1/10) 10 1)).mu_a = 1/10 ∧
    (readme_sample (optical_thickness (1/10) 10 1)).mu_sp = 1 ∧
    (readme_sample (optical_thickness_legacy (1/10) 10 1)).mu_s ≠ 10 := by
  refine ⟨?_, ?_, ?_, ?_, ?_, ?_, ?_⟩ <;>
    simp [optical_thickness_legacy, optical_thickness, readme_sample, albedo,
      Sample.mu_s, Sample.mu_a, Sample.mu_sp] <;> norm_num

/-- C6: for the spec-S4 sphere (no baffle) the analytic gain is exactly
`90/23`, which is within `5·10⁻⁴` of the published value 3.913. -/
theorem s4_sphere_gain :
    s4_sphere.gain = 90/23 ∧ |s4_sphere.gain - 3913/1000| < 1/2000 := by
  constructor <;>
    simp [Sphere.gain, Sphere.bounce_r, Sphere.a_wall, port_a, s4_sphere] <;>
    norm_num [abs_lt]

/-- C8 counterexample: the default `Sample()` does not use 8 quadrature
directions per hemisphere; both shipped notebooks print
`quadrature points   = 4` for it. -/
theorem default_sample_quad_pts_ne_eight : default_sample.quad_pts ≠ 8 := by
  decide

/-- C8 amended: when the caller does not specify the quadrature size, a
sample uses `N = 4` quadrature directions per hemisphere by default. -/
theorem default_sample_quad_pts : default_sample.quad_pts = 4 := rfl

/-! ## Theorems for claim C3 -/

/-- C3: for every sample with refractive index `n > 1` and any degree-1-exact
Gauss and Radau base rules (the Radau rule pinned at `+1`), the hemisphere
quadrature built by splitting at the critical cosine `νc = cos_critical(n,1)`
satisfies `Σ 2·ν·w = 1` exactly; its below-critical nodes lie in `(0, νc)`,
its above-critical nodes lie in `(νc, 1]`, and its last node is pinned at
`ν = 1`.  For a sample with `n = 1` (no split) the single Radau rule mapped
onto `(0,1]` likewise satisfies `Σ 2·ν·w = 1` with last node 1. -/
theorem quadrature_flux_normalization
    (n : ℝ) (hn : 1 < n) {N₁ M₂ : ℕ}
    (gauss : QuadRule N₁) (radau : QuadRule (M₂ + 1))
    (hg : gauss.exact1) (hr : radau.exact1)
    (hg_range : ∀ i, -1 < gauss.nodes i ∧ gauss.nodes i < 1)
    (hr_range : ∀ i, -1 < radau.nodes i ∧ radau.nodes i ≤ 1)
    (hpin : radau.nodes (Fin.last M₂) = 1) :
    (split_quadrature n gauss radau).twonuw_sum = 1 ∧
    (∀ i, 0 < (split_quadrature n gauss radau).nodes (Fin.castAdd (M₂ + 1) i) ∧
      (split_quadrature n gauss radau).nodes (Fin.castAdd (M₂ + 1) i) < cos_critical n 1) ∧
    (∀ i, cos_critical n 1 < (split_quadrature n gauss radau).nodes (Fin.natAdd N₁ i) ∧
      (split_quadrature n gauss radau).nodes (Fin.natAdd N₁ i) ≤ 1) ∧
    (split_quadrature n gauss radau).nodes (Fin.natAdd N₁ (Fin.last M₂)) = 1 ∧
    (radau.shift 0 1).twonuw_sum = 1 ∧
    (radau.shift 0 1).nodes (Fin.last M₂) = 1 := by
  obtain ⟨hc0, hc1⟩ := cos_critical_mem_Ioo hn
  set c := cos_critical n 1 with hc
  have hnat : ∀ i : Fin (M₂ + 1),
      (split_quadrature n gauss radau).nodes (Fin.natAdd N₁ i)
        = (1 - c) / 2 * radau.nodes i + (1 + c) / 2 := by
    intro i
    unfold split_quadrature QuadRule.append QuadRule.shift
    simp [Fin.append_right, hc]
  refine ⟨?_, ?_, ?_, ?_, ?_, ?_⟩
  · unfold split_quadrature
    rw [twonuw_sum_append, twonuw_sum_shift gauss hg, twonuw_sum_shift radau hr]
    ring
  · intro i
    have hrange := hg_range i
    have : (split_quadrature n gauss radau).nodes (Fin.castAdd (M₂ + 1) i)
        = (c - 0) / 2 * gauss.nodes i + (c + 0) / 2 := by
      unfold split_quadrature QuadRule.append QuadRule.shift
      simp [Fin.append_left, hc]
    rw [this]
    constructor <;> nlinarith [hrange.1, hrange.2]
  · intro i
    have hrange := hr_range i
    rw [hnat i]
    constructor <;> nlinarith [hrange.1, hrange.2]
  · rw [hnat (Fin.last M₂), hpin]; ring
  · rw [twonuw_sum_shift radau hr]; ring
  · show (1 - 0) / 2 * radau.nodes (Fin.last M₂) + (1 + 0) / 2 = 1
    rw [hpin]; ring

/-- C3 witness: the splitting theorem applied to the concrete sample index
`n = 2`, the 1-point Gauss midpoint rule and the 2-point right-Radau rule. -/
theorem quadrature_flux_normalization_witness :
    ((1 : ℝ) < 2 ∧ gauss1_rule.exact1 ∧ radau2_rule.exact1 ∧
      radau2_rule.nodes (Fin.last 1) = 1) ∧
    (split_quadrature 2 gauss1_rule radau2_rule).twonuw_sum = 1 ∧
    (split_quadrature 2 gauss1_rule radau2_rule).nodes
      (Fin.natAdd 1 (Fin.last 1)) = 1 := by
  have h1 : (1 : ℝ) < 2 := by norm_num
  have hg : gauss1_rule.exact1 := by
    refine ⟨?_, ?_⟩ <;> simp [gauss1_rule]
  have hr : radau2_rule.exact1 := by
    refine ⟨?_, ?_⟩ <;> rw [Fin.sum_univ_two] <;> norm_num [radau2_rule]
  have hgr : ∀ i, -1 < gauss1_rule.nodes i ∧ gauss1_rule.nodes i < 1 := by
    intro i; fin_cases i; constructor <;> norm_num [gauss1_rule]
  have hrr : ∀ i, -1 < radau2_rule.nodes i ∧ radau2_rule.nodes i ≤ 1 := by
    intro i; fin_cases i <;> constructor <;> norm_num [radau2_rule]
  have hpin : radau2_rule.nodes (Fin.last 1) = 1 := by
    norm_num [radau2_rule, Fin.last]
  have main := quadrature_flux_normalization 2 h1 gauss1_rule radau2_rule
    hg hr hgr hrr hpin
  exact ⟨⟨h1, hg, hr, hpin⟩, main.1, main.2.2.2.1⟩

/-! ## Helper lemmas: redistribution -/

/-- Legendre polynomials take the value 1 at `x = 1`. -/
theorem legendreP_one (k : ℕ) : legendreP k 1 = 1 := by
  induction k using Nat.strong_induction_on with
  | _ k ih =>
    match k with
    | 0 => rfl
    | 1 => rfl
    | m + 2 =>
      have h1 : legendreP (m + 1) 1 = 1 := ih (m + 1) (by omega)
      have h2 : legendreP m 1 = 1 := ih m (by omega)
      show ((2 * (m : ℝ) + 3) * 1 * legendreP (m + 1) 1
          - ((m : ℝ) + 1) * legendreP m 1) / ((m : ℝ) + 2) = 1
      rw [h1, h2]
      have hm : (m : ℝ) + 2 ≠ 0 := by positivity
      field_simp
      ring

/-- Closed form for the partial sums of `Σ (2k+1)xᵏ`. -/
theorem sum_odd_geom (x : ℝ) (n : ℕ) :
    (∑ k ∈ Finset.range n, (2 * (k : ℝ) + 1) * x ^ k) * (1 - x) ^ 2
      = 1 + x - (2 * (n : ℝ) + 1) * x ^ n + (2 * (n : ℝ) - 1) * x ^ (n + 1) := by
  induction n with
  | zero => simp
  | succ m ih =>
    rw [Finset.sum_range_succ, add_mul, ih]
    push_cast
    ring

/-- The δ-M moments are dominated by the raw Henyey–Greenstein moments `gᵏ`
for `0 ≤ g < 1`. -/
theorem chi_dm_le_pow {g : ℝ} (hg0 : 0 ≤ g) (hg1 : g < 1) (M k : ℕ)
    (hM : 0 < M) : chi_dm g M k ≤ g ^ k := by
  have hgM : g ^ M < 1 := pow_lt_one₀ hg0 hg1 (Nat.pos_iff_ne_zero.mp hM)
  have hden : 0 < 1 - g ^ M := by linarith
  rw [chi_dm, div_le_iff₀ hden]
  have hk1 : g ^ k ≤ 1 := pow_le_one₀ hg0 (le_of_lt hg1)
  have hMk : 0 ≤ g ^ M := pow_nonneg hg0 M
  nlinarith

/-- The complete elliptic integral of the second kind at modulus 0 is `π/2`. -/
theorem ellipe_zero : ellipe 0 = Real.pi / 2 := by
  unfold ellipe
  simp

/-- The elliptic-path redistribution function at normal incidence in and out:
`h(1,1) = (1+g)/(1−g)²` (the forward peak of the Henyey–Greenstein phase
function). -/
theorem hg_elliptic_h_one_one {g : ℝ} (hg : g < 1) :
    hg_elliptic_h g 1 1 = (1 + g) / (1 - g) ^ 2 := by
  have h1g : (0 : ℝ) < 1 - g := by linarith
  have hs0 : Real.sqrt (1 - (1 : ℝ) ^ 2) = 0 := by
    norm_num
  unfold hg_elliptic_h
  rw [hs0]
  have e1 : (1 : ℝ) + g ^ 2 - 2 * g * 1 * 1 - 2 * g * 0 * 0 = (1 - g) ^ 2 := by ring
  have e2 : (1 : ℝ) + g ^ 2 - 2 * g * 1 * 1 + 2 * g * 0 * 0 = (1 - g) ^ 2 := by ring
  rw [e1, e2, Real.sqrt_sq h1g.le,
    show 2 * (2 * g * 0 * 0) = (0 : ℝ) by ring, zero_div, Real.sqrt_zero, ellipe_zero]
  have hpi : Real.pi ≠ 0 := Real.pi_ne_zero
  have hd : ((1 - g) ^ 2 * (1 - g)) ≠ 0 := (mul_pos (pow_pos h1g 2) h1g).ne'
  field_simp
  ring

/-- The elliptic-path redistribution function is constant 1 for isotropic
scattering `g = 0`. -/
theorem hg_elliptic_h_isotropic (x y : ℝ) : hg_elliptic_h 0 x y = 1 := by
  unfold hg_elliptic_h
  norm_num [Real.sqrt_one, ellipe_zero]
  field_simp

/-! ## Theorems for claim C5 -/

/-- C5 counterexample: the δ-M Legendre and elliptic redistribution matrices
do not agree to `10⁻³` in max-norm for `|g| ≤ 0.95`, `N ≥ 16`.  At `g = 0.9`,
`N = 16` and any admissible quadrature (last node pinned at `ν = 1`, here
`νᵢ = (i+1)/16`), the `[15,15]` entry of the elliptic matrix is the exact
forward peak `(1+g)/(1−g)² = 190`, while the order-32 δ-M Legendre entry is
at most `Σ_{k<32} (2k+1)(0.9)ᵏ ≈ 161.5` — a gap of tens of units. -/
theorem dm_elliptic_disagreement : ¬dm_elliptic_agreement_claim := by
  intro hclaim
  have hvalid : valid_nodes c5_nodes := by
    refine ⟨?_, ?_, ?_⟩
    · intro a b hab
      have h : (a : ℕ) < (b : ℕ) := hab
      have h' : ((a : ℕ) : ℝ) < ((b : ℕ) : ℝ) := by exact_mod_cast h
      unfold c5_nodes
      linarith
    · intro i
      constructor
      · unfold c5_nodes; positivity
      · unfold c5_nodes
        have : ((i : ℕ) : ℝ) ≤ 15 := by
          have := i.isLt
          exact_mod_cast Nat.le_of_lt_succ this
        rw [div_le_one (by norm_num)]
        linarith
    · intro _
      show (((15 : ℕ) : ℝ) + 1) / 16 = 1
      norm_num
  have hmem : (⟨15, by norm_num⟩ : Fin 16) = ⟨15, by norm_num⟩ := rfl
  have hnode : c5_nodes ⟨15, by norm_num⟩ = 1 := by
    show (((15 : ℕ) : ℝ) + 1) / 16 = 1
    norm_num
  obtain ⟨hp_bound, _⟩ :=
    hclaim 16 (9 / 10) c5_nodes (le_refl 16) (by rw [abs_of_pos] <;> norm_num) hvalid
  have hentry := hp_bound ⟨15, by norm_num⟩ ⟨15, by norm_num⟩
  have hleg : hg_legendre_hp (9 / 10) (2 * 16) c5_nodes ⟨15, by norm_num⟩ ⟨15, by norm_num⟩
      = ∑ k ∈ Finset.range 32, (2 * (k : ℝ) + 1) * chi_dm (9 / 10) 32 k := by
    show (∑ k ∈ Finset.range (2 * 16), (2 * (k : ℝ) + 1) * chi_dm (9 / 10) (2 * 16) k
        * legendreP k (c5_nodes ⟨15, by norm_num⟩) * legendreP k (c5_nodes ⟨15, by norm_num⟩)) = _
    rw [show 2 * 16 = 32 from rfl]
    refine Finset.sum_congr rfl fun k _ => ?_
    rw [hnode, legendreP_one, mul_one, mul_one]
  have hell : hg_elliptic_hp (9 / 10) c5_nodes ⟨15, by norm_num⟩ ⟨15, by norm_num⟩
      = 190 := by
    show hg_elliptic_h (9 / 10) (c5_nodes ⟨15, by norm_num⟩) (c5_nodes ⟨15, by norm_num⟩) = 190
    rw [hnode, hg_elliptic_h_one_one (by norm_num)]
    norm_num
  have hterm : ∀ k ∈ Finset.range 32,
      (2 * (k : ℝ) + 1) * chi_dm (9 / 10) 32 k ≤ (2 * (k : ℝ) + 1) * (9 / 10 : ℝ) ^ k := by
    intro k _
    have := chi_dm_le_pow (g := 9 / 10) (by norm_num) (by norm_num) 32 k (by norm_num)
    have hco : (0 : ℝ) ≤ 2 * (k : ℝ) + 1 := by positivity
    exact mul_le_mul_of_nonneg_left this hco
  have hS := sum_odd_geom (9 / 10 : ℝ) 32
  have hSval : (∑ k ∈ Finset.range 32, (2 * (k : ℝ) + 1) * (9 / 10 : ℝ) ^ k) ≤ 189 := by
    norm_num at hS
    linarith
  have hlegbound : hg_legendre_hp (9 / 10) (2 * 16) c5_nodes ⟨15, by norm_num⟩ ⟨15, by norm_num⟩
      ≤ 189 := by
    rw [hleg]
    exact le_trans (Finset.sum_le_sum hterm) hSval
  rw [hell] at hentry
  have habs : 190 - hg_legendre_hp (9 / 10) (2 * 16) c5_nodes ⟨15, by norm_num⟩ ⟨15, by norm_num⟩
      ≤ |hg_legendre_hp (9 / 10) (2 * 16) c5_nodes ⟨15, by norm_num⟩ ⟨15, by norm_num⟩ - 190| := by
    rw [abs_sub_comm]
    exact le_abs_self _
  linarith

/-- C5 amended: the two redistribution paths agree exactly for isotropic
scattering `g = 0` (both matrices are constant 1 on every quadrature and for
every truncation order `M ≥ 1`); for anisotropic `g` the agreement bound of
the claim fails (see the counterexample theorem), the δ-M matrix differing
from the true redistribution function at the forward-peak node `ν = 1`. -/
theorem hg_isotropic_agreement (M : ℕ) (hM : 0 < M) {N : ℕ} (ν : Fin N → ℝ)
    (i j : Fin N) :
    hg_legendre_hp 0 M ν i j = hg_elliptic_hp 0 ν i j ∧
    hg_legendre_hm 0 M ν i j = hg_elliptic_hm 0 ν i j := by
  have hM' : M ≠ 0 := Nat.pos_iff_ne_zero.mp hM
  have hchi0 : chi_dm 0 M 0 = 1 := by
    rw [chi_dm, pow_zero, zero_pow hM']
    norm_num
  have hchik : ∀ k : ℕ, k ≠ 0 → chi_dm 0 M k = 0 := by
    intro k hk
    rw [chi_dm, zero_pow hk, zero_pow hM']
    norm_num
  have hlegsum : ∀ x y : ℝ,
      (∑ k ∈ Finset.range M,
        (2 * (k : ℝ) + 1) * chi_dm 0 M k * legendreP k x * legendreP k y) = 1 := by
    intro x y
    rw [Finset.sum_eq_single_of_mem 0 (Finset.mem_range.mpr hM)]
    · rw [hchi0]
      show (2 * ((0 : ℕ) : ℝ) + 1) * 1 * 1 * 1 = 1
      norm_num
    · intro b _ hb
      rw [hchik b hb]
      ring
  constructor
  · show (∑ k ∈ Finset.range M,
        (2 * (k : ℝ) + 1) * chi_dm 0 M k * legendreP k (ν i) * legendreP k (ν j))
      = hg_elliptic_h 0 (ν i) (ν j)
    rw [hlegsum, hg_elliptic_h_isotropic]
  · show (∑ k ∈ Finset.range M,
        (2 * (k : ℝ) + 1) * chi_dm 0 M k * legendreP k (ν i) * legendreP k (-ν j))
      = hg_elliptic_h 0 (ν i) (-ν j)
    rw [hlegsum, hg_elliptic_h_isotropic]

/-- C5 amended-claim witness: the isotropic agreement theorem applied at
truncation order `M = 32` on the concrete 16-point quadrature. -/
theorem hg_isotropic_agreement_witness :
    0 < 32 ∧
    hg_legendre_hp 0 32 c5_nodes 0 1 = hg_elliptic_hp 0 c5_nodes 0 1 ∧
    hg_legendre_hm 0 32 c5_nodes 0 1 = hg_elliptic_hm 0 c5_nodes 0 1 := by
  have h := hg_isotropic_agreement 32 (by norm_num) c5_nodes 0 1
  exact ⟨by norm_num, h.1, h.2⟩

/-! ## Helper lemmas: layer matrices -/

/-- The adjugate inverse is a left inverse when the determinant is a unit. -/
theorem minv_mul {N : ℕ} {A : Matrix (Fin N) (Fin N) ℝ} (h : IsUnit A.det) :
    minv A * A = 1 := by
  have hd : A.det ≠ 0 := by
    simpa [isUnit_iff_ne_zero] using h
  unfold minv
  rw [Matrix.smul_mul, Matrix.adjugate_mul, smul_smul, inv_mul_cancel₀ hd, one_smul]

/-- The adjugate inverse is a right inverse when the determinant is a unit. -/
theorem mul_minv {N : ℕ} {A : Matrix (Fin N) (Fin N) ℝ} (h : IsUnit A.det) :
    A * minv A = 1 := by
  have hd : A.det ≠ 0 := by
    simpa [isUnit_iff_ne_zero] using h
  unfold minv
  rw [Matrix.mul_smul, Matrix.mul_adjugate, smul_smul, inv_mul_cancel₀ hd, one_smul]

/-- The adjugate inverse commutes with transposition. -/
theorem minv_transpose {N : ℕ} (A : Matrix (Fin N) (Fin N) ℝ) :
    (minv A)ᵀ = minv Aᵀ := by
  unfold minv
  rw [Matrix.transpose_smul, Matrix.adjugate_transpose, Matrix.det_transpose]

/-- Push-through identity for the adding-step resolvents:
`C·(I − D·C)⁻¹ = (I − C·D)⁻¹·C`. -/
theorem push_minv {N : ℕ} (C D : Matrix (Fin N) (Fin N) ℝ)
    (h1 : IsUnit (1 - C * D).det) (h2 : IsUnit (1 - D * C).det) :
    C * minv (1 - D * C) = minv (1 - C * D) * C := by
  calc C * minv (1 - D * C)
      = (minv (1 - C * D) * (1 - C * D)) * (C * minv (1 - D * C)) := by
        rw [minv_mul h1, one_mul]
    _ = minv (1 - C * D) * (C * ((1 - D * C) * minv (1 - D * C))) := by
        noncomm_ring
    _ = minv (1 - C * D) * C := by rw [mul_minv h2, mul_one]

/-- Core algebra of the mirror-symmetric sandwich, stated in any ring: with
`P, P', M, N` two-sided inverses of `1 − r·q`, `1 − q·r`, `1 − G·q`, `1 − q·G`
for `G = r + t·P'·q·t` (the upward reflection of boundary-plus-slab), the
downward and upward transmissions through boundary · slab · mirror-boundary
agree, as do the two reflections. -/
theorem sandwich_core {R : Type*} [Ring R] (q r t P P' M N : R)
    (hP' : (1 - r * q) * P = 1)
    (hQ : P' * (1 - q * r) = 1)
    (hM : M * (1 - (r + t * P' * q * t) * q) = 1)
    (hN' : (1 - q * (r + t * P' * q * t)) * N = 1) :
    M * (t * P') = P * t * N ∧
    P * r + P * t * N * q * t * P' = M * (r + t * P' * q * t) := by
  have qP : q * P = P' * q := by
    calc q * P = (P' * (1 - q * r)) * (q * P) := by rw [hQ, one_mul]
      _ = P' * (q * ((1 - r * q) * P)) := by noncomm_ring
      _ = P' * q := by rw [hP', mul_one]
  have E1 : t * P' * (1 - q * (r + t * P' * q * t))
      = (1 - (r + t * P' * q * t) * q) * (P * t) := by
    have L1 : t * P' * (1 - q * (r + t * P' * q * t))
        = t * (P' * (1 - q * r)) - t * P' * q * t * (P' * (q * t)) := by
      noncomm_ring
    have L2 : (1 - (r + t * P' * q * t) * q) * (P * t)
        = ((1 - r * q) * P) * t - t * P' * q * t * ((q * P) * t) := by
      noncomm_ring
    rw [L1, hQ, mul_one, L2, hP', one_mul, qP]
    noncomm_ring
  have goalT : M * (t * P') = P * t * N := by
    calc M * (t * P')
        = M * (t * P' * ((1 - q * (r + t * P' * q * t)) * N)) := by
          rw [hN', mul_one]
      _ = M * ((t * P' * (1 - q * (r + t * P' * q * t))) * N) := by
          noncomm_ring
      _ = M * (((1 - (r + t * P' * q * t) * q) * (P * t)) * N) := by rw [E1]
      _ = (M * (1 - (r + t * P' * q * t) * q)) * (P * t * N) := by
          noncomm_ring
      _ = P * t * N := by rw [hM, one_mul]
  have A1 : (1 - (r + t * P' * q * t) * q) * (P * r)
      = r - t * P' * q * t * (P' * (q * r)) := by
    calc (1 - (r + t * P' * q * t) * q) * (P * r)
        = ((1 - r * q) * P) * r - t * P' * q * t * ((q * P) * r) := by
          noncomm_ring
      _ = 1 * r - t * P' * q * t * ((P' * q) * r) := by rw [hP', qP]
      _ = r - t * P' * q * t * (P' * (q * r)) := by noncomm_ring
  have A2 : (1 - (r + t * P' * q * t) * q) * (P * t * N * q * t * P')
      = t * P' * q * t * P' := by
    calc (1 - (r + t * P' * q * t) * q) * (P * t * N * q * t * P')
        = ((1 - (r + t * P' * q * t) * q) * (P * t)) * (N * (q * t * P')) := by
          noncomm_ring
      _ = (t * P' * (1 - q * (r + t * P' * q * t))) * (N * (q * t * P')) := by
          rw [E1]
      _ = t * P' * (((1 - q * (r + t * P' * q * t)) * N) * (q * t * P')) := by
          noncomm_ring
      _ = t * P' * (1 * (q * t * P')) := by rw [hN']
      _ = t * P' * q * t * P' := by noncomm_ring
  have S1 : (1 - (r + t * P' * q * t) * q) * (P * r + P * t * N * q * t * P')
      = r + t * P' * q * t := by
    calc (1 - (r + t * P' * q * t) * q) * (P * r + P * t * N * q * t * P')
        = (1 - (r + t * P' * q * t) * q) * (P * r)
          + (1 - (r + t * P' * q * t) * q) * (P * t * N * q * t * P') := by
          noncomm_ring
      _ = (r - t * P' * q * t * (P' * (q * r))) + t * P' * q * t * P' := by
          rw [A1, A2]
      _ = r + t * P' * q * t * (P' * (1 - q * r)) := by noncomm_ring
      _ = r + t * P' * q * t := by rw [hQ, mul_one]
  refine ⟨goalT, ?_⟩
  calc P * r + P * t * N * q * t * P'
      = (M * (1 - (r + t * P' * q * t) * q)) * (P * r + P * t * N * q * t * P') := by
        rw [hM, one_mul]
    _ = M * ((1 - (r + t * P' * q * t) * q) * (P * r + P * t * N * q * t * P')) := by
        noncomm_ring
    _ = M * (r + t * P' * q * t) := by rw [S1]

/-! ## Theorems for claim C4 -/

/-- C4: wrapping a symmetric slab (`R₀₁ = R₁₀`, `T₀₁ = T₁₀`) between a
boundary layer and its mirror image — the `n_above = n_below` case — yields
a stack whose angle-resolved matrices satisfy `R₀₁ = R₁₀` and `T₀₁ = T₁₀`
elementwise, so the total reflectance and total transmittance are identical
for light incident from the top and from the bottom.  The invertibility
hypotheses say the four multiple-bounce resolvents of the two adding steps
are nonsingular. -/
theorem add_slides_symmetric {n : ℕ} (B S : Layer n)
    (hSR : S.r10 = S.r01) (hST : S.t10 = S.t01)
    (h1 : IsUnit (1 - S.r01 * B.r10).det)
    (h2 : IsUnit (1 - B.r10 * S.r01).det)
    (h3 : IsUnit (1 - (add_layers B S).r10 * B.r10).det)
    (h4 : IsUnit (1 - B.r10 * (add_layers B S).r10).det) :
    (add_slides B S).r01 = (add_slides B S).r10 ∧
    (add_slides B S).t01 = (add_slides B S).t10 ∧
    ∀ w : Fin n → ℝ,
      total_flux w (add_slides B S).r01 = total_flux w (add_slides B S).r10 ∧
      total_flux w (add_slides B S).t01 = total_flux w (add_slides B S).t10 := by
  obtain ⟨p, q, u, v⟩ := B
  obtain ⟨r', r, t', t⟩ := S
  simp only at hSR hST h1 h2 h3 h4
  subst hSR
  subst hST
  simp only [add_layers] at h3 h4
  obtain ⟨hT, hR⟩ := sandwich_core q r t (minv (1 - r * q)) (minv (1 - q * r))
    (minv (1 - (r + t * minv (1 - q * r) * q * t) * q))
    (minv (1 - q * (r + t * minv (1 - q * r) * q * t)))
    (mul_minv h1) (minv_mul h2) (minv_mul h3) (mul_minv h4)
  have e1 : (add_slides (Layer.mk p q u v) (Layer.mk r r t t)).r01
      = (add_slides (Layer.mk p q u v) (Layer.mk r r t t)).r10 := by
    show p + v * minv (1 - r * q) * r * u
        + v * minv (1 - r * q) * t
          * minv (1 - q * (r + t * minv (1 - q * r) * q * t)) * q
          * (t * minv (1 - q * r) * u)
      = p + v * minv (1 - (r + t * minv (1 - q * r) * q * t) * q)
          * (r + t * minv (1 - q * r) * q * t) * u
    calc p + v * minv (1 - r * q) * r * u
        + v * minv (1 - r * q) * t
          * minv (1 - q * (r + t * minv (1 - q * r) * q * t)) * q
          * (t * minv (1 - q * r) * u)
        = p + v * (minv (1 - r * q) * r
            + minv (1 - r * q) * t
              * minv (1 - q * (r + t * minv (1 - q * r) * q * t)) * q * t
              * minv (1 - q * r)) * u := by noncomm_ring
      _ = p + v * (minv (1 - (r + t * minv (1 - q * r) * q * t) * q)
            * (r + t * minv (1 - q * r) * q * t)) * u := by rw [hR]
      _ = p + v * minv (1 - (r + t * minv (1 - q * r) * q * t) * q)
            * (r + t * minv (1 - q * r) * q * t) * u := by noncomm_ring
  have e2 : (add_slides (Layer.mk p q u v) (Layer.mk r r t t)).t01
      = (add_slides (Layer.mk p q u v) (Layer.mk r r t t)).t10 := by
    show v * minv (1 - (r + t * minv (1 - q * r) * q * t) * q)
          * (t * minv (1 - q * r) * u)
      = v * minv (1 - r * q) * t
          * minv (1 - q * (r + t * minv (1 - q * r) * q * t)) * u
    calc v * minv (1 - (r + t * minv (1 - q * r) * q * t) * q)
          * (t * minv (1 - q * r) * u)
        = v * (minv (1 - (r + t * minv (1 - q * r) * q * t) * q)
            * (t * minv (1 - q * r))) * u := by noncomm_ring
      _ = v * (minv (1 - r * q) * t
            * minv (1 - q * (r + t * minv (1 - q * r) * q * t))) * u := by rw [hT]
      _ = v * minv (1 - r * q) * t
            * minv (1 - q * (r + t * minv (1 - q * r) * q * t)) * u := by
          noncomm_ring
  exact ⟨e1, e2, fun w => ⟨by rw [e1], by rw [e2]⟩⟩

/-- C4 witness: the slide-symmetry theorem applied to a concrete boundary
layer and a concrete symmetric slab on a one-cone quadrature. -/
theorem add_slides_symmetric_witness :
    (c4_slab.r10 = c4_slab.r01 ∧ c4_slab.t10 = c4_slab.t01 ∧
      IsUnit (1 - c4_slab.r01 * c4_boundary.r10).det ∧
      IsUnit (1 - c4_boundary.r10 * c4_slab.r01).det ∧
      IsUnit (1 - (add_layers c4_boundary c4_slab).r10 * c4_boundary.r10).det ∧
      IsUnit (1 - c4_boundary.r10 * (add_layers c4_boundary c4_slab).r10).det) ∧
    (add_slides c4_boundary c4_slab).r01 = (add_slides c4_boundary c4_slab).r10 ∧
    (add_slides c4_boundary c4_slab).t01 = (add_slides c4_boundary c4_slab).t10 := by
  have hSR : c4_slab.r10 = c4_slab.r01 := rfl
  have hST : c4_slab.t10 = c4_slab.t01 := rfl
  have h1 : IsUnit (1 - c4_slab.r01 * c4_boundary.r10).det := by
    simp [c4_slab, c4_boundary]
  have h2 : IsUnit (1 - c4_boundary.r10 * c4_slab.r01).det := by
    simp [c4_slab, c4_boundary]
  have h3 : IsUnit (1 - (add_layers c4_boundary c4_slab).r10 * c4_boundary.r10).det := by
    simp [c4_boundary]
  have h4 : IsUnit (1 - c4_boundary.r10 * (add_layers c4_boundary c4_slab).r10).det := by
    simp [add_layers, c4_slab, c4_boundary]
  have main := add_slides_symmetric c4_boundary c4_slab hSR hST h1 h2 h3 h4
  exact ⟨⟨hSR, hST, h1, h2, h3, h4⟩, main.1, main.2.1⟩

/-! ## Theorems for claim C9 -/

/-- The total diffuse flux carried by a matrix is invariant under
transposition (the `twonuw` weighting is the same on both sides). -/
theorem total_flux_transpose {n : ℕ} (w : Fin n → ℝ)
    (X : Matrix (Fin n) (Fin n) ℝ) :
    total_flux w Xᵀ = total_flux w X := by
  unfold total_flux
  rw [Finset.sum_comm]
  refine Finset.sum_congr rfl fun i _ => Finset.sum_congr rfl fun k _ => ?_
  rw [Matrix.transpose_apply]
  ring

/-- Reciprocity (`R₀₁` and `R₁₀` symmetric, `T₁₀ = T₀₁ᵀ`) is preserved by the
adding step: the key structural lemma behind the shipped `wrmatrix` tables. -/
theorem add_layers_recip {n : ℕ} (L₁ L₂ : Layer n)
    (h₁ : Recip L₁) (h₂ : Recip L₂)
    (hA : IsUnit (1 - L₂.r01 * L₁.r10).det)
    (hB : IsUnit (1 - L₁.r10 * L₂.r01).det) :
    Recip (add_layers L₁ L₂) := by
  obtain ⟨a1, a1', a1t⟩ := h₁
  obtain ⟨b1, b1', b1t⟩ := h₂
  have a1t' : L₁.t10ᵀ = L₁.t01 := by rw [← a1t, Matrix.transpose_transpose]
  have b1t' : L₂.t10ᵀ = L₂.t01 := by rw [← b1t, Matrix.transpose_transpose]
  have htr : (1 - L₁.r10 * L₂.r01)ᵀ = 1 - L₂.r01 * L₁.r10 := by
    rw [Matrix.transpose_sub, Matrix.transpose_one, Matrix.transpose_mul, a1', b1]
  have htr' : (1 - L₂.r01 * L₁.r10)ᵀ = 1 - L₁.r10 * L₂.r01 := by
    rw [Matrix.transpose_sub, Matrix.transpose_one, Matrix.transpose_mul, b1, a1']
  have push1 : L₂.r01 * minv (1 - L₁.r10 * L₂.r01)
      = minv (1 - L₂.r01 * L₁.r10) * L₂.r01 := push_minv _ _ hA hB
  have push2 : L₁.r10 * minv (1 - L₂.r01 * L₁.r10)
      = minv (1 - L₁.r10 * L₂.r01) * L₁.r10 := push_minv _ _ hB hA
  refine ⟨?_, ?_, ?_⟩
  · show (L₁.r01 + L₁.t10 * minv (1 - L₂.r01 * L₁.r10) * L₂.r01 * L₁.t01)ᵀ
      = L₁.r01 + L₁.t10 * minv (1 - L₂.r01 * L₁.r10) * L₂.r01 * L₁.t01
    rw [Matrix.transpose_add, a1]
    congr 1
    rw [Matrix.transpose_mul, Matrix.transpose_mul, Matrix.transpose_mul,
      a1t, a1t', b1, minv_transpose, htr']
    calc L₁.t10 * (L₂.r01 * (minv (1 - L₁.r10 * L₂.r01) * L₁.t01))
        = L₁.t10 * ((L₂.r01 * minv (1 - L₁.r10 * L₂.r01)) * L₁.t01) := by
          noncomm_ring
      _ = L₁.t10 * ((minv (1 - L₂.r01 * L₁.r10) * L₂.r01) * L₁.t01) := by
          rw [push1]
      _ = L₁.t10 * minv (1 - L₂.r01 * L₁.r10) * L₂.r01 * L₁.t01 := by
          noncomm_ring
  · show (L₂.r10 + L₂.t01 * minv (1 - L₁.r10 * L₂.r01) * L₁.r10 * L₂.t10)ᵀ
      = L₂.r10 + L₂.t01 * minv (1 - L₁.r10 * L₂.r01) * L₁.r10 * L₂.t10
    rw [Matrix.transpose_add, b1']
    congr 1
    rw [Matrix.transpose_mul, Matrix.transpose_mul, Matrix.transpose_mul,
      b1t, b1t', a1', minv_transpose, htr]
    calc L₂.t01 * (L₁.r10 * (minv (1 - L₂.r01 * L₁.r10) * L₂.t10))
        = L₂.t01 * ((L₁.r10 * minv (1 - L₂.r01 * L₁.r10)) * L₂.t10) := by
          noncomm_ring
      _ = L₂.t01 * ((minv (1 - L₁.r10 * L₂.r01) * L₁.r10) * L₂.t10) := by
          rw [push2]
      _ = L₂.t01 * minv (1 - L₁.r10 * L₂.r01) * L₁.r10 * L₂.t10 := by
          noncomm_ring
  · show (L₂.t01 * minv (1 - L₁.r10 * L₂.r01) * L₁.t01)ᵀ
      = L₁.t10 * minv (1 - L₂.r01 * L₁.r10) * L₂.t10
    rw [Matrix.transpose_mul, Matrix.transpose_mul,
      a1t, b1t, minv_transpose, htr]
    noncomm_ring

/-- C9: even when the two boundary layers differ (`n_above ≠ n_below`, so
`R₀₁ ≠ R₁₀` in general), transmission through the full
boundary–slab–boundary stack is reciprocal: `T₁₀` is the transpose of
`T₀₁`, and the total transmittance is identical for light incident from the
top and from the bottom. -/
theorem stack_transmission_reciprocal {n : ℕ} (B₁ S B₂ : Layer n)
    (hB₁ : Recip B₁) (hS : Recip S) (hB₂ : Recip B₂)
    (h1 : IsUnit (1 - S.r01 * B₁.r10).det)
    (h2 : IsUnit (1 - B₁.r10 * S.r01).det)
    (h3 : IsUnit (1 - B₂.r01 * (add_layers B₁ S).r10).det)
    (h4 : IsUnit (1 - (add_layers B₁ S).r10 * B₂.r01).det) :
    (stack3 B₁ S B₂).t01ᵀ = (stack3 B₁ S B₂).t10 ∧
    ∀ w : Fin n → ℝ,
      total_flux w (stack3 B₁ S B₂).t01 = total_flux w (stack3 B₁ S B₂).t10 := by
  have hX : Recip (add_layers B₁ S) := add_layers_recip B₁ S hB₁ hS h1 h2
  have hfull : Recip (stack3 B₁ S B₂) :=
    add_layers_recip (add_layers B₁ S) B₂ hX hB₂ h3 h4
  refine ⟨hfull.2.2, fun w => ?_⟩
  rw [← hfull.2.2, total_flux_transpose]

/-- C9 witness: the transmission-reciprocity theorem applied to concrete
distinct boundary layers and a concrete slab on a one-cone quadrature. -/
theorem stack_transmission_reciprocal_witness :
    (Recip c9_top ∧ Recip c9_mid ∧ Recip c9_bot ∧
      IsUnit (1 - c9_mid.r01 * c9_top.r10).det ∧
      IsUnit (1 - c9_top.r10 * c9_mid.r01).det ∧
      IsUnit (1 - c9_bot.r01 * (add_layers c9_top c9_mid).r10).det ∧
      IsUnit (1 - (add_layers c9_top c9_mid).r10 * c9_bot.r01).det) ∧
    (stack3 c9_top c9_mid c9_bot).t01ᵀ = (stack3 c9_top c9_mid c9_bot).t10 := by
  have hB₁ : Recip c9_top := by
    refine ⟨?_, ?_, ?_⟩ <;> simp [c9_top]
  have hS : Recip c9_mid := by
    refine ⟨?_, ?_, ?_⟩ <;> simp [c9_mid]
  have hB₂ : Recip c9_bot := by
    refine ⟨?_, ?_, ?_⟩ <;> simp [c9_bot]
  have h1 : IsUnit (1 - c9_mid.r01 * c9_top.r10).det := by
    simp [c9_mid, c9_top]
  have h2 : IsUnit (1 - c9_top.r10 * c9_mid.r01).det := by
    simp [c9_mid, c9_top]
  have h3 : IsUnit (1 - c9_bot.r01 * (add_layers c9_top c9_mid).r10).det := by
    simp [c9_bot]
  have h4 : IsUnit (1 - (add_layers c9_top c9_mid).r10 * c9_bot.r01).det := by
    simp [c9_bot]
  have main := stack_transmission_reciprocal c9_top c9_mid c9_bot
    hB₁ hS hB₂ h1 h2 h3 h4
  exact ⟨⟨hB₁, hS, hB₂, h1, h2, h3, h4⟩, main.1⟩

/-! ## Theorems for claim C10 -/

/-- A product has a zero column wherever the right factor does. -/
theorem mul_col_eq_zero {n : ℕ} (X Y : Matrix (Fin n) (Fin n) ℝ) {j : Fin n}
    (h : ∀ k, Y k j = 0) (i : Fin n) : (X * Y) i j = 0 := by
  rw [Matrix.mul_apply]
  simp [h]

/-- A product has a zero row wherever the left factor does. -/
theorem row_mul_eq_zero {n : ℕ} (X Y : Matrix (Fin n) (Fin n) ℝ) {j : Fin n}
    (h : ∀ k, X j k = 0) (i : Fin n) : (X * Y) j i = 0 := by
  rw [Matrix.mul_apply]
  simp [h]

/-- C10: if quadrature direction `j` is totally internally reflected at both
boundaries — the boundary reflection is diagonal at `j` with the value
`1/twonuw[j]` and the boundary transmissions vanish on row and column `j` —
then in the full boundary–slab–boundary matrices the `j` row and column of
the reflection matrix are purely diagonal with flux exactly 1, and the `j`
row and column of the transmission matrix are identically 0.  No
invertibility is needed: the zero rows/columns propagate through the adding
resolvents unconditionally. -/
theorem tir_rows_diagonal {n : ℕ} (Bt S Bb : Layer n) (w : Fin n → ℝ)
    (j : Fin n) (hw : w j ≠ 0)
    (hr_col : ∀ i, i ≠ j → Bt.r01 i j = 0)
    (hr_row : ∀ i, i ≠ j → Bt.r01 j i = 0)
    (hr_diag : Bt.r01 j j = 1 / w j)
    (ht01_col : ∀ i, Bt.t01 i j = 0)
    (ht10_row : ∀ i, Bt.t10 j i = 0)
    (hb01_row : ∀ i, Bb.t01 j i = 0) :
    (∀ i, i ≠ j → (stack3 Bt S Bb).r01 i j = 0 ∧ (stack3 Bt S Bb).r01 j i = 0) ∧
    (stack3 Bt S Bb).r01 j j = 1 / w j ∧
    (∑ i, w i * (stack3 Bt S Bb).r01 i j) = 1 ∧
    (∀ i, (stack3 Bt S Bb).t01 i j = 0 ∧ (stack3 Bt S Bb).t01 j i = 0) := by
  have et01X : (add_layers Bt S).t01
      = S.t01 * minv (1 - Bt.r10 * S.r01) * Bt.t01 := rfl
  have et10X : (add_layers Bt S).t10
      = Bt.t10 * minv (1 - S.r01 * Bt.r10) * S.t10 := rfl
  have er01X : (add_layers Bt S).r01
      = Bt.r01 + Bt.t10 * minv (1 - S.r01 * Bt.r10) * S.r01 * Bt.t01 := rfl
  have et01S : (stack3 Bt S Bb).t01
      = Bb.t01 * minv (1 - (add_layers Bt S).r10 * Bb.r01)
        * (add_layers Bt S).t01 := rfl
  have er01S : (stack3 Bt S Bb).r01
      = (add_layers Bt S).r01 + (add_layers Bt S).t10
        * minv (1 - Bb.r01 * (add_layers Bt S).r10) * Bb.r01
        * (add_layers Bt S).t01 := rfl
  have hXt01_col : ∀ i, (add_layers Bt S).t01 i j = 0 := by
    intro i
    rw [et01X]
    exact mul_col_eq_zero _ _ ht01_col i
  have hXt10_row : ∀ i, (add_layers Bt S).t10 j i = 0 := by
    intro i
    rw [et10X, Matrix.mul_assoc]
    exact row_mul_eq_zero _ _ ht10_row i
  have hXr01_col : ∀ i, (add_layers Bt S).r01 i j = Bt.r01 i j := by
    intro i
    rw [er01X, Matrix.add_apply, mul_col_eq_zero _ _ ht01_col i, add_zero]
  have hXr01_row : ∀ i, (add_layers Bt S).r01 j i = Bt.r01 j i := by
    intro i
    rw [er01X, Matrix.add_apply, Matrix.mul_assoc, Matrix.mul_assoc,
      row_mul_eq_zero _ _ ht10_row i, add_zero]
  have hSt01_col : ∀ i, (stack3 Bt S Bb).t01 i j = 0 := by
    intro i
    rw [et01S]
    exact mul_col_eq_zero _ _ hXt01_col i
  have hSt01_row : ∀ i, (stack3 Bt S Bb).t01 j i = 0 := by
    intro i
    rw [et01S, Matrix.mul_assoc]
    exact row_mul_eq_zero _ _ hb01_row i
  have hSr01_col : ∀ i, (stack3 Bt S Bb).r01 i j = Bt.r01 i j := by
    intro i
    rw [er01S, Matrix.add_apply, mul_col_eq_zero _ _ hXt01_col i, add_zero,
      hXr01_col]
  have hSr01_row : ∀ i, (stack3 Bt S Bb).r01 j i = Bt.r01 j i := by
    intro i
    rw [er01S, Matrix.add_apply, Matrix.mul_assoc, Matrix.mul_assoc,
      row_mul_eq_zero _ _ hXt10_row i, add_zero, hXr01_row]
  refine ⟨?_, ?_, ?_, ?_⟩
  · intro i hi
    exact ⟨by rw [hSr01_col i, hr_col i hi], by rw [hSr01_row i, hr_row i hi]⟩
  · rw [hSr01_col j, hr_diag]
  · rw [Finset.sum_congr rfl fun i _ => by rw [hSr01_col i]]
    rw [Finset.sum_eq_single j]
    · rw [hr_diag]
      field_simp
    · intro b _ hb
      rw [hr_col b hb, mul_zero]
    · intro hj
      exact absurd (Finset.mem_univ j) hj
  · intro i
    exact ⟨hSt01_col i, hSt01_row i⟩

/-- C10 witness: the total-internal-reflection theorem applied to concrete
boundary layers, a concrete slab, and the weights `twonuw = (2, 3)` with
direction 0 totally internally reflected. -/
theorem tir_rows_diagonal_witness :
    (c10_w 0 ≠ 0 ∧
      (∀ i, i ≠ 0 → c10_top.r01 i 0 = 0) ∧
      (∀ i, i ≠ 0 → c10_top.r01 0 i = 0) ∧
      c10_top.r01 0 0 = 1 / c10_w 0 ∧
      (∀ i, c10_top.t01 i 0 = 0) ∧
      (∀ i, c10_top.t10 0 i = 0) ∧
      (∀ i, c10_bot.t01 0 i = 0)) ∧
    (stack3 c10_top c10_mid c10_bot).r01 0 0 = 1 / c10_w 0 ∧
    (∑ i, c10_w i * (stack3 c10_top c10_mid c10_bot).r01 i 0) = 1 ∧
    (∀ i, (stack3 c10_top c10_mid c10_bot).t01 i 0 = 0 ∧
      (stack3 c10_top c10_mid c10_bot).t01 0 i = 0) := by
  have hw : c10_w 0 ≠ 0 := by norm_num [c10_w]
  have hr_col : ∀ i, i ≠ 0 → c10_top.r01 i 0 = 0 := by
    intro i hi
    fin_cases i
    · exact absurd rfl hi
    · norm_num [c10_top]
  have hr_row : ∀ i, i ≠ 0 → c10_top.r01 0 i = 0 := by
    intro i hi
    fin_cases i
    · exact absurd rfl hi
    · norm_num [c10_top]
  have hr_diag : c10_top.r01 0 0 = 1 / c10_w 0 := by
    norm_num [c10_top, c10_w]
  have ht01_col : ∀ i, c10_top.t01 i 0 = 0 := by
    intro i
    fin_cases i <;> norm_num [c10_top]
  have ht10_row : ∀ i, c10_top.t10 0 i = 0 := by
    intro i
    fin_cases i <;> norm_num [c10_top]
  have hb01_row : ∀ i, c10_bot.t01 0 i = 0 := by
    intro i
    fin_cases i <;> norm_num [c10_bot]
  have main := tir_rows_diagonal c10_top c10_mid c10_bot c10_w 0 hw
    hr_col hr_row hr_diag ht01_col ht10_row hb01_row
  exact ⟨⟨hw, hr_col, hr_row, hr_diag, ht01_col, ht10_row, hb01_row⟩,
    main.2.1, main.2.2.1, main.2.2.2⟩

end Iadpython
